import Mathlib

/-!
Verification of the pressorpass game-search core (`src/pyl.hpp`, `src/pyl.cpp`,
`src/pyl_search.hpp`, `src/pyl_search.cpp`) against its specification.

Modelling conventions:
* C++ `int` is modelled as `Int`; C++ truncating division is `Int.tdiv`.
* Bitfield stores (`unsigned int x : w`) truncate modulo `2^w`; every
  constructor below applies the corresponding `% 2^w` explicitly.
* The C++ `Prob` type is `float`; it is modelled as `ℚ` (exact arithmetic),
  following the spec's "within floating tolerance" reading.
* `std::hash<unsigned int>` is the identity function (libstdc++), as the
  header's own comment states ("hash<SpinValue> is just the identity").
-/

namespace Pyl

/-- The C++ `Prob` (a `float`) modelled as exact rationals. -/
abbrev Prob := ℚ

/-- `SpinValue::MinScoreUnit` from `pyl.hpp`. -/
def MinScoreUnit : Int := 250

/-- `SpinValue::MaxScore` from `pyl.hpp`. -/
def MaxScore : Int := 20000

/-- `SpinValue` from `pyl.hpp`: three bitfields packed into one 32-bit word:
`score : 16`, `earned : 8`, `taken : 8`.  The fields hold the already
truncated stored values. -/
structure SpinValue where
  score : Nat
  earned : Nat
  taken : Nat
deriving DecidableEq, Repr, BEq

/-- The 3-argument constructor `SpinValue(int score, int earned = 0, int taken = 1)`:
`u_.score = min(MaxScore, ((score + MinScoreUnit/2) / MinScoreUnit) * MinScoreUnit)`
with C++ truncating division, stored into a 16-bit field; `earned` and `taken`
are stored into 8-bit fields. -/
def SpinValue.mk3 (score earned taken : Int) : SpinValue :=
  ⟨((min MaxScore (((score + MinScoreUnit.tdiv 2).tdiv MinScoreUnit) * MinScoreUnit)) % 65536).toNat,
   (earned % 256).toNat, (taken % 256).toNat⟩

/-- The 4-argument constructor `SpinValue(int score1, int score2, int earned, int taken)`:
`u_.score = min(MaxScore, score1+score2)`, fields truncated to their widths. -/
def SpinValue.mk4 (score1 score2 earned taken : Int) : SpinValue :=
  ⟨((min MaxScore (score1 + score2)) % 65536).toNat,
   (earned % 256).toNat, (taken % 256).toNat⟩

/-- `SpinValue::whammy()`: `score() == 0`. -/
def SpinValue.whammy (v : SpinValue) : Prop := v.score = 0

instance (v : SpinValue) : Decidable v.whammy := by
  unfold SpinValue.whammy; infer_instance

/-- `operator* (const SpinValue& sv1, const SpinValue& sv2)` from `pyl.cpp`:
if `sv2` is a whammy the result is `sv2`; if `sv1` is a whammy the result is
`SpinValue(0, sv2.earned(), 1+sv2.taken())`; otherwise
`SpinValue(sv1.score(), sv2.score(), sv1.earned()+sv2.earned(), sv1.taken()+sv2.taken())`. -/
def svMul (sv1 sv2 : SpinValue) : SpinValue :=
  if sv2.score = 0 then sv2
  else if sv1.score = 0 then SpinValue.mk3 0 (sv2.earned : Int) (1 + (sv2.taken : Int))
  else SpinValue.mk4 (sv1.score : Int) (sv2.score : Int)
       ((sv1.earned : Int) + (sv2.earned : Int)) ((sv1.taken : Int) + (sv2.taken : Int))

/-- A `SpinOperator`'s weighted-outcome set (`WeightedSet<SpinValue, Prob>`),
modelled as its list of (weight, value) entries. -/
def SpinOp := List (Prob × SpinValue)

/-- `SpinOperator::operator() (const SpinOperator& sop)` from `pyl.cpp`:
for every term `t` of `sop` and every term `u` of `this`, add weight
`u.second * t.second` at key `u.first * t.first`. -/
def opComp (A B : SpinOp) : SpinOp :=
  B.flatMap (fun t => A.map (fun u => (u.1 * t.1, svMul u.2 t.2)))

/-- The accumulated weight an entry list gives to one `SpinValue` key:
the semantics of the `unordered_map` that `WeightedSet::add` accumulates into. -/
def wt (l : SpinOp) (v : SpinValue) : Prob :=
  ((l.filter (fun e => e.2 == v)).map (fun e => e.1)).sum

/-- `Player` from `pyl.hpp`: one 32-bit word of bitfields
`score:16, earned:4, passed:4, whammies:4, up:2, reserved:2`.
Fields hold the stored (already truncated) values. -/
structure Player where
  score : Nat
  earned : Nat
  passed : Nat
  whammies : Nat
  up : Nat
  reserved : Nat
deriving DecidableEq, Repr

/-- `Player::MaxWhammies`. -/
def MaxWhammies : Nat := 4

/-- `Player::spins()`: `earned + passed`. -/
def Player.spins (p : Player) : Nat := p.earned + p.passed

/-- `Player::out()`: `whammies >= MaxWhammies`. -/
def Player.out (p : Player) : Bool := MaxWhammies ≤ p.whammies

/-- `Player::take_spins(count)` from `pyl.hpp`.  The final branch's
`earned -= count - passed` is unsigned arithmetic whose result is stored into
the 4-bit `earned` field, hence the explicit `% 16` of the integer value. -/
def Player.take_spins (p : Player) (count : Nat) : Player :=
  if p.passed = count then { p with passed := 0 }
  else if count < p.passed then { p with passed := p.passed - count }
  else { p with earned := (((p.earned : Int) - ((count : Int) - (p.passed : Int))) % 16).toNat,
                passed := 0 }

/-- `Player::hash()`: reinterprets the packed 32-bit word.  With the GCC/Itanium
bitfield layout the first-declared field occupies the least significant bits. -/
def Player.hash (p : Player) : Nat :=
  p.score % 2 ^ 16 + 2 ^ 16 * (p.earned % 2 ^ 4) + 2 ^ 20 * (p.passed % 2 ^ 4) +
    2 ^ 24 * (p.whammies % 2 ^ 4) + 2 ^ 28 * (p.up % 2 ^ 2) + 2 ^ 30 * (p.reserved % 2 ^ 2)

/-- `operator== (const Player&, const Player&)` from `pyl.cpp`: compares hashes. -/
def playerEq (p0 p1 : Player) : Prop := p0.hash = p1.hash

/-- `State` from `pyl.hpp`: exactly 3 players; `players[0].up` is the index of
the player currently up. -/
structure State where
  players : Fin 3 → Player

instance : DecidableEq State := fun s0 s1 =>
  decidable_of_iff (s0.players = s1.players)
    ⟨fun h => by cases s0; cases s1; simpa using h, fun h => by cases h; rfl⟩

/-- `operator== (const State&, const State&)` from `pyl.cpp`: all players equal
(by `Player` equality, i.e. by hash). -/
def stateEq (s0 s1 : State) : Prop := ∀ i : Fin 3, playerEq (s0.players i) (s1.players i)

/-- `std::hash<State>` from `pyl.hpp`: XOR of the three player words, the
second shifted left by 1 and the third by 2 (`std::hash<unsigned int>` is the
identity in libstdc++). -/
def stateHash (s : State) : Nat :=
  (s.players 0).hash ^^^ ((s.players 1).hash <<< 1) ^^^ ((s.players 2).hash <<< 2)

/-- `State::up_num()`: `players[0].up`. -/
def State.upNum (s : State) : Nat := (s.players 0).up

/-- Index of the player currently up.  The C++ indexes `players[up_num()]`
directly (undefined behavior for the unreachable stored value 3); the model
reduces modulo 3, and theorems that depend on it carry `upNum < 3`. -/
def State.upIdx (s : State) : Fin 3 := ⟨s.upNum % 3, Nat.mod_lt _ (by norm_num)⟩

/-- `State::opponent_num(n)`: `(up_num()+n+1) % num_players`. -/
def State.oppIdx (s : State) (n : Nat) : Fin 3 :=
  ⟨(s.upNum + n + 1) % 3, Nat.mod_lt _ (by norm_num)⟩

/-- `State::passee()`: the opponent with `opponent(0).score >= opponent(1).score`
getting priority (ties go to `opponent(0)`). -/
def State.passeeIdx (s : State) : Fin 3 :=
  if (s.players (s.oppIdx 1)).score ≤ (s.players (s.oppIdx 0)).score then s.oppIdx 0
  else s.oppIdx 1

/-- `State::lead()`: `const_up().score - const_passee().score` as a C++ `int`. -/
def State.lead (s : State) : Int :=
  ((s.players s.upIdx).score : Int) - ((s.players s.passeeIdx).score : Int)

/-- `State::third_place()`: up player's score strictly below both opponents'. -/
def State.third_place (s : State) : Prop :=
  (s.players s.upIdx).score < (s.players (s.oppIdx 0)).score ∧
    (s.players s.upIdx).score < (s.players (s.oppIdx 1)).score

instance (s : State) : Decidable s.third_place := by
  unfold State.third_place; infer_instance

/-- `State::terminal()`: the up player has no spins, or both opponents are out. -/
def State.terminal (s : State) : Prop :=
  (s.players s.upIdx).spins = 0 ∨
    ((s.players (s.oppIdx 0)).out = true ∧ (s.players (s.oppIdx 1)).out = true)

/-- Replace one player of a state. -/
def State.setPlayer (s : State) (i : Fin 3) (p : Player) : State :=
  ⟨Function.update s.players i p⟩

/-- `State::up(u)`: `players[0].up = u` (2-bit store). -/
def State.setUp (s : State) (u : Nat) : State :=
  s.setPlayer 0 { s.players 0 with up := u % 4 }

/-- `State::change_player()` from `pyl.cpp`: if the up player has no spins,
make the first player (in index order) with nonzero spins the up player;
if none exists, leave the state unchanged (end-of-game signal). -/
def change_player (s : State) : State :=
  if (s.players s.upIdx).spins = 0 then
    if 0 < (s.players 0).spins then s.setUp 0
    else if 0 < (s.players 1).spins then s.setUp 1
    else if 0 < (s.players 2).spins then s.setUp 2
    else s
  else s

/-- The body of `operator* (const PassOperator&, const State&)` before
`change_player()`: `passee().passed += up().earned` (4-bit store), then
`up().earned = 0`. -/
def passMid (s : State) : State :=
  let s1 := s.setPlayer s.passeeIdx
    { s.players s.passeeIdx with
        passed := ((s.players s.passeeIdx).passed + (s.players s.upIdx).earned) % 16 }
  s1.setPlayer s1.upIdx { s1.players s1.upIdx with earned := 0 }

/-- `operator* (const PassOperator&, const State&)` from `pyl.cpp`. -/
def passApply (s : State) : State := change_player (passMid s)

/-- One step of the loop body of `TerminalNode::calc_payoff` in
`pyl_search.cpp`, tracking the running `(max, count)`:
`if out skip; else if score == max count++; else if score > max {max=score; count=1;}`. -/
def tmStep (mc : Nat × Nat) (p : Player) : Nat × Nat :=
  if p.out then mc
  else if p.score = mc.1 then (mc.1, mc.2 + 1)
  else if mc.1 < p.score then (p.score, 1)
  else mc

/-- The players of a state in array order. -/
def playersList (s : State) : List Player := [s.players 0, s.players 1, s.players 2]

/-- The `(max, count)` pair computed by the first loop of
`TerminalNode::calc_payoff`, starting from `max = 0`, `count = 0`. -/
def termMaxCount (s : State) : Nat × Nat := (playersList s).foldl tmStep (0, 0)

/-- `TerminalNode::calc_payoff` from `pyl_search.cpp`: each player with
`score == max && !out` gets `1.0/count`, everyone else `0`. -/
def terminalPayoff (s : State) : Fin 3 → Prob :=
  fun i =>
    if (s.players i).score = (termMaxCount s).1 ∧ (s.players i).out = false then
      (1 : Prob) / ((termMaxCount s).2 : Prob)
    else 0

/-- `Payoff::uncertainty()` for a computed (non-null) payoff:
`1.0 - accumulate(prob)`. -/
def payUncertainty (p : Fin 3 → Prob) : Prob := 1 - ∑ i, p i

/-- `merge` from `pyl_search.cpp`: per-player minimum of two payoffs. -/
def merge (first second : Fin 3 → Prob) : Fin 3 → Prob :=
  fun n => min (first n) (second n)

/-- `DecideNode::calc_payoff` from `pyl_search.cpp`, as a function of the two
optional branch payoffs (the result of `if_play->payoff()` / `if_pass->payoff()`)
and the index of the player up:
no branches gives the all-zero payoff (`payoff_.clear()`); one branch
propagates; with both, the branch with the strictly larger win probability for
the player up propagates, and an exact tie yields `merge(pass, play)`. -/
def decidePayoff (ifPlay ifPass : Option (Fin 3 → Prob)) (up : Fin 3) : Fin 3 → Prob :=
  match ifPlay, ifPass with
  | none, none => fun _ => 0
  | none, some pp => pp
  | some pl, none => pl
  | some pl, some pp =>
      if pp up < pl up then pl
      else if pl up < pp up then pp
      else merge pp pl

/-- `SearchOptions` from `pyl_search.hpp` (fields as stored; `max_lead` is a
16-bit field, the flags single bits). -/
structure SearchOptions where
  max_uncertainty : Prob
  max_lead : Nat
  max_depth : Nat
  max_passed_spins_optimized : Nat
  debug : Bool
  always_spin_third_place : Bool
  merge_passed_spins : Bool
  optimize_final_spin : Bool

/-- The branch-creation step of `DecideNode::scan_branches` from
`pyl_search.cpp` on first materialization (`!if_pass && !if_play`):
the play branch is the spin node for the same state unless
`options.max_lead && state.lead() > options.max_lead`; the pass branch is the
node for `pass_op * state` unless
`options.always_spin_third_place && state.third_place()`.
The result holds the states the two branch nodes are created for,
`none` meaning the branch reference is left null. -/
def scanBranchesInit (o : SearchOptions) (s : State) : Option State × Option State :=
  (if o.max_lead ≠ 0 ∧ (o.max_lead : Int) < s.lead then none else some s,
   if o.always_spin_third_place = true ∧ s.third_place then none else some (passApply s))

/-- Scores of the non-eliminated players, in array order (specification-side
helper for the claim about `TerminalNode::calc_payoff`). -/
def aliveScores (s : State) : List Nat :=
  ((playersList s).filter (fun p => !p.out)).map Player.score

/-- Maximum score among non-eliminated players (0 when none). -/
def aliveMax (s : State) : Nat := (aliveScores s).foldr max 0

/-- Number of non-eliminated players whose score equals `aliveMax`. -/
def tiedCount (s : State) : Nat :=
  (((playersList s).filter (fun p => !p.out)).filter (fun p => p.score == aliveMax s)).length

/-- C1 counterexample: spin-operator composition is NOT associative.  With the
singleton operators `A = {1.0 : whammy}`, `B = {1.0 : 1000+SPIN}`,
`C = {1.0 : 2000}` (all three values appear on the `Spin1` board),
`(A∘B)∘C` gives the key `(0,1,3)` weight `0` while `A∘(B∘C)` gives it weight
`1`, so the two weighted-outcome sets differ; equivalently, on the underlying
`SpinValue`s, `(whammy * b) * c ≠ whammy * (b * c)`. -/
theorem spin_composition_not_associative :
    svMul (svMul ⟨0, 0, 1⟩ ⟨1000, 1, 1⟩) ⟨2000, 0, 1⟩ ≠
      svMul ⟨0, 0, 1⟩ (svMul ⟨1000, 1, 1⟩ ⟨2000, 0, 1⟩) ∧
    wt (opComp (opComp [((1 : Prob), (⟨0, 0, 1⟩ : SpinValue))]
          [((1 : Prob), (⟨1000, 1, 1⟩ : SpinValue))])
        [((1 : Prob), (⟨2000, 0, 1⟩ : SpinValue))]) ⟨0, 1, 3⟩ = 0 ∧
    wt (opComp [((1 : Prob), (⟨0, 0, 1⟩ : SpinValue))]
        (opComp [((1 : Prob), (⟨1000, 1, 1⟩ : SpinValue))]
          [((1 : Prob), (⟨2000, 0, 1⟩ : SpinValue))])) ⟨0, 1, 3⟩ = 1 := by
  refine ⟨by decide, rfl, ?_⟩
  have h : wt (opComp [((1 : Prob), (⟨0, 0, 1⟩ : SpinValue))]
      (opComp [((1 : Prob), (⟨1000, 1, 1⟩ : SpinValue))]
        [((1 : Prob), (⟨2000, 0, 1⟩ : SpinValue))])) ⟨0, 1, 3⟩ = (1 : ℚ) * (1 * 1) + 0 := rfl
  rw [h]; norm_num

/-- C1 (amended): `SpinValue` composition IS associative whenever the first
operand is not an elimination (whammy) outcome; hence operator composition
built from whammy-free boards is associative.  (The unrestricted claim fails,
see the counterexample: a leading whammy drops the middle operand's earned and
taken counts.) -/
theorem svMul_assoc_of_first_not_whammy (a b c : SpinValue) (ha : a.score ≠ 0) :
    svMul (svMul a b) c = svMul a (svMul b c) := by
  by_cases hc : c.score = 0
  · simp [svMul, hc]
  · by_cases hb : b.score = 0
    · have hd : (SpinValue.mk3 0 (c.earned : Int) (1 + (c.taken : Int))).score = 0 := rfl
      simp [svMul, hb, hc, hd, ha]
    · have hab : svMul a b = SpinValue.mk4 (a.score : Int) (b.score : Int)
          ((a.earned : Int) + (b.earned : Int)) ((a.taken : Int) + (b.taken : Int)) := by
        simp [svMul, hb, ha]
      have hbc : svMul b c = SpinValue.mk4 (b.score : Int) (c.score : Int)
          ((b.earned : Int) + (c.earned : Int)) ((b.taken : Int) + (c.taken : Int)) := by
        simp [svMul, hc, hb]
      have h1 : ¬ (SpinValue.mk4 (a.score : Int) (b.score : Int)
          ((a.earned : Int) + (b.earned : Int)) ((a.taken : Int) + (b.taken : Int))).score = 0 := by
        simp only [SpinValue.mk4, MaxScore]
        omega
      have h2 : ¬ (SpinValue.mk4 (b.score : Int) (c.score : Int)
          ((b.earned : Int) + (c.earned : Int)) ((b.taken : Int) + (c.taken : Int))).score = 0 := by
        simp only [SpinValue.mk4, MaxScore]
        omega
      rw [hab, hbc]
      rw [svMul, svMul, if_neg hc, if_neg h1, if_neg h2, if_neg ha]
      simp only [SpinValue.mk4, SpinValue.mk.injEq, MaxScore]
      refine ⟨?_, ?_, ?_⟩ <;> omega

/-- Witness for the amended C1 theorem at the concrete whammy-free triple
`(1000+SPIN, 2000, 2500)` from the `Spin1` board. -/
theorem svMul_assoc_of_first_not_whammy_witness :
    (⟨1000, 1, 1⟩ : SpinValue).score ≠ 0 ∧
      svMul (svMul ⟨1000, 1, 1⟩ ⟨2000, 0, 1⟩) ⟨2500, 0, 1⟩ =
        svMul ⟨1000, 1, 1⟩ (svMul ⟨2000, 0, 1⟩ ⟨2500, 0, 1⟩) :=
  ⟨by decide, svMul_assoc_of_first_not_whammy ⟨1000, 1, 1⟩ ⟨2000, 0, 1⟩ ⟨2500, 0, 1⟩ (by decide)⟩

/-- C2 counterexample: composing an elimination followed by a non-elimination
outcome does NOT always have consumed-turns exactly 1 greater: with
`sv2.taken = 255` (constructible via `SpinValue(1000, 0, 255)`) the 8-bit
`taken` field wraps, `1 + 255 = 256 ≡ 0`. -/
theorem svMul_whammy_first_taken_wraps :
    ¬ ((svMul (SpinValue.mk3 0 0 1) (SpinValue.mk3 1000 0 255)).taken =
        (SpinValue.mk3 1000 0 255).taken + 1) := by
  decide

/-- C2 (amended): the three-case functional description of
`operator*(SpinValue, SpinValue)` holds with the overflow provisos forced by
the 8-bit `earned`/`taken` bitfields: (1) any outcome followed by an
elimination yields exactly the elimination outcome; (2) an elimination
followed by a non-elimination yields zero score, the later outcome's earned
turns (a stored 8-bit value), and consumed turns one greater provided
`1 + taken < 256`; (3) with no elimination, scores add saturating at
`MaxScore`, and earned/consumed turns add provided each sum stays below 256
(otherwise the stored fields wrap modulo 256). -/
theorem svMul_case_spec :
    (∀ sv1 sv2 : SpinValue, sv2.score = 0 → svMul sv1 sv2 = sv2) ∧
    (∀ sv1 sv2 : SpinValue, sv1.score = 0 → sv2.score ≠ 0 → sv2.earned < 256 →
      1 + sv2.taken < 256 →
      (svMul sv1 sv2).score = 0 ∧ (svMul sv1 sv2).earned = sv2.earned ∧
        (svMul sv1 sv2).taken = sv2.taken + 1) ∧
    (∀ sv1 sv2 : SpinValue, sv1.score ≠ 0 → sv2.score ≠ 0 →
      sv1.earned + sv2.earned < 256 → sv1.taken + sv2.taken < 256 →
      ((svMul sv1 sv2).score : Int) = min MaxScore ((sv1.score : Int) + (sv2.score : Int)) ∧
        (svMul sv1 sv2).earned = sv1.earned + sv2.earned ∧
        (svMul sv1 sv2).taken = sv1.taken + sv2.taken) := by
  refine ⟨fun sv1 sv2 h2 => by simp [svMul, h2], ?_, ?_⟩
  · intro sv1 sv2 h1 h2 he ht
    rw [svMul, if_neg h2, if_pos h1]
    simp only [SpinValue.mk3, MaxScore, MinScoreUnit]
    refine ⟨rfl, ?_, ?_⟩ <;> omega
  · intro sv1 sv2 h1 h2 he ht
    rw [svMul, if_neg h2, if_neg h1]
    simp only [SpinValue.mk4, MaxScore]
    refine ⟨?_, ?_, ?_⟩ <;> omega

/-- Witness for the amended C2 theorem: part (1) at `(2000) * whammy`,
part (2) at `whammy * (1000+SPIN)`, part (3) at `(1000+SPIN) * (2000)`. -/
theorem svMul_case_spec_witness :
    (svMul ⟨2000, 0, 1⟩ ⟨0, 0, 1⟩ = ⟨0, 0, 1⟩) ∧
    ((svMul ⟨0, 0, 1⟩ ⟨1000, 1, 1⟩).score = 0 ∧
      (svMul ⟨0, 0, 1⟩ ⟨1000, 1, 1⟩).earned = 1 ∧
      (svMul ⟨0, 0, 1⟩ ⟨1000, 1, 1⟩).taken = 2) ∧
    (((svMul ⟨1000, 1, 1⟩ ⟨2000, 0, 1⟩).score : Int) = min MaxScore 3000 ∧
      (svMul ⟨1000, 1, 1⟩ ⟨2000, 0, 1⟩).earned = 1 ∧
      (svMul ⟨1000, 1, 1⟩ ⟨2000, 0, 1⟩).taken = 2) :=
  ⟨svMul_case_spec.1 ⟨2000, 0, 1⟩ ⟨0, 0, 1⟩ rfl,
   svMul_case_spec.2.1 ⟨0, 0, 1⟩ ⟨1000, 1, 1⟩ rfl (by decide) (by decide) (by decide),
   svMul_case_spec.2.2 ⟨1000, 1, 1⟩ ⟨2000, 0, 1⟩ (by decide) (by decide) (by decide) (by decide)⟩

/-- C7 counterexample: for the negative raw score `-400`, the C++ expression
`min(MaxScore, ((-400 + 125) / 250) * 250)` is `-250` (truncating division),
and storing it into the unsigned 16-bit `score` field wraps to `65286`, which
is neither a multiple of 250 nor at most `MaxScore`. -/
theorem quantize_negative_counterexample :
    (SpinValue.mk3 (-400) 0 1).score = 65286 ∧
      (SpinValue.mk3 (-400) 0 1).score % 250 ≠ 0 ∧
      20000 < (SpinValue.mk3 (-400) 0 1).score := by
  decide

/-- The stored score of the 3-argument constructor, for nonnegative raw scores:
round half up to a multiple of 250, then saturate at 20000. -/
theorem mk3_score_eq (s : Int) (hs : 0 ≤ s) (e t : Int) :
    ((SpinValue.mk3 s e t).score : Int) = min 20000 ((s + 125) / 250 * 250) := by
  have htd : (s + Int.tdiv 250 2).tdiv 250 = (s + 125) / 250 := by
    rw [show Int.tdiv (250:Int) 2 = 125 from rfl]
    exact Int.tdiv_eq_ediv (by omega) (by omega)
  simp only [SpinValue.mk3, MinScoreUnit, MaxScore, htd, min_def]
  split_ifs <;> omega

/-- The stored score of the 4-argument constructor, for nonnegative inputs:
the sum saturated at 20000. -/
theorem mk4_score_eq (s1 s2 : Int) (h1 : 0 ≤ s1) (h2 : 0 ≤ s2) (e t : Int) :
    ((SpinValue.mk4 s1 s2 e t).score : Int) = min 20000 (s1 + s2) := by
  simp only [SpinValue.mk4, MaxScore, min_def]
  split_ifs <;> omega

/-- C7 (amended): for every NONNEGATIVE raw integer score `s`, the stored
outcome score is a multiple of `MinScoreUnit` (250), at most `MaxScore`
(20000), and among such multiples it is nearest to `s` with ties rounding up;
and the two-score composition constructor keeps the
`0 ≤ score ≤ MaxScore ∧ score % Unit = 0` invariant whenever both inputs
satisfy it.  (The unrestricted claim over every raw integer fails for negative
scores, where the truncating division plus the unsigned 16-bit store wrap the
value: see the counterexample at `s = -400`.) -/
theorem quantize_spec :
    (∀ s : Int, 0 ≤ s → ∀ e t : Int,
       ((SpinValue.mk3 s e t).score : Int) % 250 = 0 ∧
        ((SpinValue.mk3 s e t).score : Int) ≤ MaxScore ∧
        ∀ m : Int, m % 250 = 0 → 0 ≤ m → m ≤ MaxScore →
          |((SpinValue.mk3 s e t).score : Int) - s| ≤ |m - s| ∧
          (|m - s| = |((SpinValue.mk3 s e t).score : Int) - s| →
            m ≤ ((SpinValue.mk3 s e t).score : Int))) ∧
    (∀ s1 s2 e t : Int, 0 ≤ s1 → s1 ≤ MaxScore → s1 % 250 = 0 →
       0 ≤ s2 → s2 ≤ MaxScore → s2 % 250 = 0 →
       0 ≤ ((SpinValue.mk4 s1 s2 e t).score : Int) ∧
        ((SpinValue.mk4 s1 s2 e t).score : Int) ≤ MaxScore ∧
        ((SpinValue.mk4 s1 s2 e t).score : Int) % 250 = 0) := by
  constructor
  · intro s hs e t
    rw [mk3_score_eq s hs e t]
    simp only [MaxScore, min_def]
    split_ifs with hmin
    · refine ⟨by omega, by omega, ?_⟩
      intro m hm1 hm2 hm3
      refine ⟨?_, fun _ => by omega⟩
      rcases abs_cases ((20000 : Int) - s) with ⟨ha1, _⟩ | ⟨ha1, _⟩ <;>
        rcases abs_cases (m - s) with ⟨hb1, _⟩ | ⟨hb1, _⟩ <;> rw [ha1, hb1] <;> omega
    · refine ⟨by omega, by omega, ?_⟩
      intro m hm1 hm2 hm3
      constructor
      · rcases abs_cases ((s + 125) / 250 * 250 - s) with ⟨ha1, _⟩ | ⟨ha1, _⟩ <;>
          rcases abs_cases (m - s) with ⟨hb1, _⟩ | ⟨hb1, _⟩ <;> rw [ha1, hb1] <;> omega
      · intro htie
        rcases abs_cases ((s + 125) / 250 * 250 - s) with ⟨ha1, _⟩ | ⟨ha1, _⟩ <;>
          rcases abs_cases (m - s) with ⟨hb1, _⟩ | ⟨hb1, _⟩ <;> rw [ha1, hb1] at htie <;> omega
  · intro s1 s2 e t h1 h2 h3 h4 h5 h6
    simp only [MaxScore] at h2 h5
    rw [mk4_score_eq s1 s2 h1 h4 e t]
    simp only [MaxScore, min_def]
    split_ifs with h <;> refine ⟨by omega, by omega, by omega⟩

/-- Witness for the amended C7 theorem at the raw score 1400 (which the
header's own comment says is stored as 1500) and at the composition
`1500 + 750`. -/
theorem quantize_spec_witness :
    (((SpinValue.mk3 1400 0 1).score : Int) % 250 = 0 ∧
      ((SpinValue.mk3 1400 0 1).score : Int) ≤ MaxScore) ∧
    (0 ≤ ((SpinValue.mk4 1500 750 0 2).score : Int) ∧
      ((SpinValue.mk4 1500 750 0 2).score : Int) ≤ MaxScore ∧
      ((SpinValue.mk4 1500 750 0 2).score : Int) % 250 = 0) :=
  ⟨⟨(quantize_spec.1 1400 (by norm_num) 0 1).1, (quantize_spec.1 1400 (by norm_num) 0 1).2.1⟩,
   quantize_spec.2 1500 750 0 2 (by norm_num) (by decide) (by decide)
     (by norm_num) (by decide) (by decide)⟩

/-- C10: under the precondition `count ≤ passed + earned` (and the 4-bit field
invariant `earned < 16`), `Player::take_spins` decreases `spins()` by exactly
`count`, drains passed turns first and earned turns only for the remainder,
the unguarded `earned -= count - passed` never wraps
(`count - passed ≤ earned`), and the other player fields are untouched. -/
theorem take_spins_spec (p : Player) (count : Nat) (he : p.earned < 16)
    (hc : count ≤ p.passed + p.earned) :
    (p.take_spins count).spins + count = p.spins ∧
    (p.take_spins count).passed = p.passed - count ∧
    (p.take_spins count).earned = p.earned - (count - p.passed) ∧
    count - p.passed ≤ p.earned ∧
    (p.take_spins count).score = p.score ∧
    (p.take_spins count).whammies = p.whammies ∧
    (p.take_spins count).up = p.up := by
  unfold Player.take_spins Player.spins
  split_ifs with h1 h2 <;> simp_all <;> omega

/-- Witness for the C10 theorem: a player with 1 passed and 2 earned turns
taking 2 spins drains the passed turn first, then one earned turn. -/
theorem take_spins_spec_witness :
    ((Player.mk 500 2 1 0 0 0).take_spins 2).spins + 2 = (Player.mk 500 2 1 0 0 0).spins ∧
    ((Player.mk 500 2 1 0 0 0).take_spins 2).passed = 1 - 2 ∧
    ((Player.mk 500 2 1 0 0 0).take_spins 2).earned = 2 - (2 - 1) ∧
    2 - 1 ≤ 2 ∧
    ((Player.mk 500 2 1 0 0 0).take_spins 2).score = 500 ∧
    ((Player.mk 500 2 1 0 0 0).take_spins 2).whammies = 0 ∧
    ((Player.mk 500 2 1 0 0 0).take_spins 2).up = 0 :=
  take_spins_spec (Player.mk 500 2 1 0 0 0) 2 (by decide) (by decide)

/-- C4: `DecideNode::calc_payoff` — no branches gives the all-zero payoff;
a single branch propagates its payoff; with both branches, the branch whose
win probability for the player up is strictly higher propagates its full
payoff vector; on an exact tie the result is the per-player minimum of the
two branch payoffs. -/
theorem decide_payoff_spec :
    (∀ up : Fin 3, ∀ i, decidePayoff none none up i = 0) ∧
    (∀ pp up, decidePayoff none (some pp) up = pp) ∧
    (∀ pl up, decidePayoff (some pl) none up = pl) ∧
    (∀ pl pp up, pp up < pl up → decidePayoff (some pl) (some pp) up = pl) ∧
    (∀ pl pp up, pl up < pp up → decidePayoff (some pl) (some pp) up = pp) ∧
    (∀ pl pp up, pl up = pp up →
      ∀ n, decidePayoff (some pl) (some pp) up n = min (pl n) (pp n)) := by
  refine ⟨fun up i => rfl, fun pp up => rfl, fun pl up => rfl, ?_, ?_, ?_⟩
  · intro pl pp up h
    simp [decidePayoff, h]
  · intro pl pp up h
    have h1 : ¬ pp up < pl up := not_lt.mpr h.le
    simp [decidePayoff, h1, h]
  · intro pl pp up h n
    have h1 : ¬ pp up < pl up := by rw [h]; exact lt_irrefl _
    have h2 : ¬ pl up < pp up := by rw [h]; exact lt_irrefl _
    simp [decidePayoff, h1, h2, merge, min_comm]

/-- Witness for the C4 theorem: with a strictly better play branch for
player 0, the play payoff vector propagates whole. -/
theorem decide_payoff_spec_witness :
    decidePayoff (some ![(1 : Prob)/2, 1/4, 0]) (some ![(0 : Prob), 1/4, 1/4]) 0 =
      ![(1 : Prob)/2, 1/4, 0] :=
  decide_payoff_spec.2.2.2.1 ![(1 : Prob)/2, 1/4, 0] ![(0 : Prob), 1/4, 1/4] 0 (by norm_num)

/-- C9: `Player` equality (defined in the code as equality of the packed hash
word) implies equal `Player::hash` values, and `State` equality (player-wise)
implies equal `std::hash<State>` values — the agreement the node cache relies
on when keying `unordered_map` by `State`. -/
theorem state_hash_compatible :
    (∀ p0 p1 : Player, playerEq p0 p1 → p0.hash = p1.hash) ∧
    (∀ s0 s1 : State, stateEq s0 s1 → stateHash s0 = stateHash s1) := by
  refine ⟨fun p0 p1 h => h, fun s0 s1 h => ?_⟩
  have h0 := h 0
  have h1 := h 1
  have h2 := h 2
  unfold playerEq at h0 h1 h2
  unfold stateHash
  rw [h0, h1, h2]

/-- Witness for the C9 theorem at a concrete pair of equal states. -/
theorem state_hash_compatible_witness :
    stateHash ⟨![Player.mk 500 1 0 0 0 0, Player.mk 1000 0 2 1 0 0, Player.mk 0 0 0 0 0 0]⟩ =
      stateHash ⟨![Player.mk 500 1 0 0 0 0, Player.mk 1000 0 2 1 0 0, Player.mk 0 0 0 0 0 0]⟩ :=
  state_hash_compatible.2 _ _ (fun _ => rfl)

/-- The passee (recipient of passed spins) is always the higher-scoring of the
two opponents, ties going to `opponent(0)`. -/
theorem passee_score_eq_max (s : State) :
    (s.players s.passeeIdx).score =
      max ((s.players (s.oppIdx 0)).score) ((s.players (s.oppIdx 1)).score) := by
  unfold State.passeeIdx
  split_ifs with h <;> omega

/-- C8: in `DecideNode::scan_branches`, on first materialization the play
branch is left absent iff `max_lead` is nonzero and the up player's lead over
the higher-scoring opponent exceeds it (`max_lead = 0` disables the cap), and
the pass branch is left absent iff the always-play-in-last-place policy is on
and the up player's score is strictly below both opponents'; otherwise the
respective branch is created (play on the same state, pass on the passed
state). -/
theorem scan_branches_spec (o : SearchOptions) (s : State) :
    ((scanBranchesInit o s).1 = none ↔
      o.max_lead ≠ 0 ∧ (o.max_lead : Int) <
        ((s.players s.upIdx).score : Int) -
          ((max ((s.players (s.oppIdx 0)).score) ((s.players (s.oppIdx 1)).score) : Nat) : Int)) ∧
    ((scanBranchesInit o s).2 = none ↔
      o.always_spin_third_place = true ∧
        (s.players s.upIdx).score < (s.players (s.oppIdx 0)).score ∧
        (s.players s.upIdx).score < (s.players (s.oppIdx 1)).score) ∧
    (¬(o.max_lead ≠ 0 ∧ (o.max_lead : Int) < s.lead) → (scanBranchesInit o s).1 = some s) ∧
    (¬(o.always_spin_third_place = true ∧ s.third_place) →
      (scanBranchesInit o s).2 = some (passApply s)) := by
  have hl : s.lead = ((s.players s.upIdx).score : Int) -
      ((max ((s.players (s.oppIdx 0)).score) ((s.players (s.oppIdx 1)).score) : Nat) : Int) := by
    unfold State.lead
    rw [passee_score_eq_max]
  unfold scanBranchesInit
  rw [← hl]
  unfold State.third_place
  refine ⟨?_, ?_, ?_, ?_⟩ <;> split_ifs with h <;> simp_all

/-- The passee index differs from the up index for every state. -/
theorem passeeIdx_ne_upIdx (s : State) : s.passeeIdx ≠ s.upIdx := by
  unfold State.passeeIdx State.upIdx State.oppIdx
  split_ifs with h <;> simp [Fin.ext_iff] <;> omega

/-- Updating the passee's record (without touching its `up` field) leaves the
up-player index unchanged. -/
theorem upNum_update_at_passee (s : State) (q : Player)
    (hq : q.up = (s.players s.passeeIdx).up) :
    (State.mk (Function.update s.players s.passeeIdx q)).upNum = s.upNum := by
  unfold State.upNum
  simp only [Function.update_apply]
  split_ifs with h
  · rw [hq, ← h]
  · rfl

/-- `passMid` written as one double update of the player array. -/
theorem pass_mid_eq (s : State) :
    passMid s = State.mk (Function.update (Function.update s.players s.passeeIdx
      { s.players s.passeeIdx with
          passed := ((s.players s.passeeIdx).passed + (s.players s.upIdx).earned) % 16 })
      s.upIdx { s.players s.upIdx with earned := 0 }) := by
  have hne : s.passeeIdx ≠ s.upIdx := passeeIdx_ne_upIdx s
  have h1 : (State.mk (Function.update s.players s.passeeIdx
      { s.players s.passeeIdx with
          passed := ((s.players s.passeeIdx).passed + (s.players s.upIdx).earned) % 16 })).upIdx
        = s.upIdx := by
    apply Fin.ext
    simp [State.upIdx, upNum_update_at_passee]
  simp only [passMid, State.setPlayer]
  rw [h1, Function.update_noteq (Ne.symm hne)]

/-- C5 counterexample: the pass transfer does NOT always increase the passee's
passed turns by the amount transferred: with the recipient already holding 15
passed turns (the 4-bit maximum) and the passer 1 earned turn, the stored
value wraps to `(15 + 1) % 16 = 0`. -/
theorem pass_overflow_counterexample :
    ((passMid (State.mk ![Player.mk 0 1 0 0 0 0, Player.mk 1000 0 15 0 0 0,
        Player.mk 0 0 0 0 0 0])).players 1).passed = 0 ∧
    ¬ ((passMid (State.mk ![Player.mk 0 1 0 0 0 0, Player.mk 1000 0 15 0 0 0,
        Player.mk 0 0 0 0 0 0])).players 1).passed = 15 + 1 := by
  decide

/-- C5 (amended): before turn control advances, the pass operator transfers
all of the up player's earned turns to the higher-scoring opponent (ties to
`opponent(0)`, a fixed ordering): that opponent's passed turns increase by
exactly the transferred amount PROVIDED the sum fits the 4-bit `passed` field
(`< 16`, otherwise the store wraps — see the counterexample); the passer's
earned turns become 0; and every other player field (all scores, all whammy
counts, all `up` fields, everyone else's passed turns, everyone else's earned
turns) is unchanged. -/
theorem pass_mid_spec (s : State) (_hup : s.upNum < 3)
    (hfit : (s.players s.passeeIdx).passed + (s.players s.upIdx).earned < 16) :
    ((passMid s).players s.passeeIdx).passed
        = (s.players s.passeeIdx).passed + (s.players s.upIdx).earned ∧
    ((passMid s).players s.upIdx).earned = 0 ∧
    (∀ i, ((passMid s).players i).score = (s.players i).score) ∧
    (∀ i, ((passMid s).players i).whammies = (s.players i).whammies) ∧
    (∀ i, ((passMid s).players i).up = (s.players i).up) ∧
    (∀ i, i ≠ s.passeeIdx → ((passMid s).players i).passed = (s.players i).passed) ∧
    (∀ i, i ≠ s.upIdx → ((passMid s).players i).earned = (s.players i).earned) ∧
    (s.players s.passeeIdx).score =
      max ((s.players (s.oppIdx 0)).score) ((s.players (s.oppIdx 1)).score) ∧
    ((s.players (s.oppIdx 0)).score = (s.players (s.oppIdx 1)).score →
      s.passeeIdx = s.oppIdx 0) := by
  have hne : s.passeeIdx ≠ s.upIdx := passeeIdx_ne_upIdx s
  rw [pass_mid_eq s]
  refine ⟨?_, ?_, ?_, ?_, ?_, ?_, ?_, passee_score_eq_max s, ?_⟩
  · simp [Function.update_apply, hne]
    omega
  · simp [Function.update_apply]
  · intro i
    simp only [Function.update_apply]
    split_ifs <;> simp_all
  · intro i
    simp only [Function.update_apply]
    split_ifs <;> simp_all
  · intro i
    simp only [Function.update_apply]
    split_ifs <;> simp_all
  · intro i hi
    simp only [Function.update_apply]
    split_ifs <;> simp_all
  · intro i hi
    simp only [Function.update_apply]
    split_ifs <;> simp_all
  · intro hsc
    unfold State.passeeIdx
    rw [if_pos (by omega)]

/-- Witness for the amended C5 theorem: player 0 (up, 2 earned turns) passes;
the higher-scoring opponent is player 2, whose passed turns go from 0 to 2. -/
theorem pass_mid_spec_witness :
    ((passMid (State.mk ![Player.mk 5000 2 0 0 0 0, Player.mk 3000 0 1 0 0 0,
        Player.mk 4000 0 0 1 0 0])).players
      ((State.mk ![Player.mk 5000 2 0 0 0 0, Player.mk 3000 0 1 0 0 0,
        Player.mk 4000 0 0 1 0 0]).passeeIdx)).passed
      = ((State.mk ![Player.mk 5000 2 0 0 0 0, Player.mk 3000 0 1 0 0 0,
        Player.mk 4000 0 0 1 0 0]).players
          ((State.mk ![Player.mk 5000 2 0 0 0 0, Player.mk 3000 0 1 0 0 0,
            Player.mk 4000 0 0 1 0 0]).passeeIdx)).passed +
        ((State.mk ![Player.mk 5000 2 0 0 0 0, Player.mk 3000 0 1 0 0 0,
          Player.mk 4000 0 0 1 0 0]).players
            ((State.mk ![Player.mk 5000 2 0 0 0 0, Player.mk 3000 0 1 0 0 0,
              Player.mk 4000 0 0 1 0 0]).upIdx)).earned :=
  (pass_mid_spec _ (by decide) (by decide)).1

/-- Folding `max` with seed `a` equals `max a` of the seed-0 fold. -/
theorem foldr_max_shift (xs : List Nat) : ∀ a : Nat, xs.foldr max a = max a (xs.foldr max 0) := by
  induction xs with
  | nil => intro a; simp only [List.foldr_nil]; omega
  | cons x t ih =>
    intro a
    rw [List.foldr_cons, List.foldr_cons, ih a]
    omega

/-- Every list member is bounded by the `max` fold. -/
theorem le_foldr_max (xs : List Nat) (x : Nat) (hx : x ∈ xs) : x ≤ xs.foldr max 0 := by
  induction xs with
  | nil => simp at hx
  | cons y t ih =>
    simp only [List.foldr_cons]
    rcases List.mem_cons.mp hx with h | h
    · subst h; omega
    · have := ih h
      omega

/-- The `max` fold of a nonempty list of naturals is attained by a member. -/
theorem foldr_max_mem (xs : List Nat) (hne : xs ≠ []) : xs.foldr max 0 ∈ xs := by
  induction xs with
  | nil => exact absurd rfl hne
  | cons x t ih =>
    by_cases ht : t = []
    · subst ht
      simp
    · have hmem := ih ht
      simp only [List.foldr_cons]
      rcases le_total (t.foldr max 0) x with h | h
      · rw [max_eq_left h]
        exact List.mem_cons_self x t
      · rw [max_eq_right h]
        exact List.mem_cons_of_mem x hmem

/-- The `(max, count)` loop of `TerminalNode::calc_payoff`, over any player
list: it computes the maximum score among non-eliminated players and how many
non-eliminated players attain it. -/
theorem tm_foldl_eq (l : List Player) :
    l.foldl tmStep (0, 0) =
      (((l.filter (fun q => !q.out)).map Player.score).foldr max 0,
       ((l.filter (fun q => !q.out)).filter
          (fun q => q.score == ((l.filter (fun q => !q.out)).map Player.score).foldr max 0)).length) := by
  induction l using List.reverseRecOn with
  | nil => rfl
  | append_singleton l p ih =>
    rw [List.foldl_append]
    simp only [List.foldl_cons, List.foldl_nil, ih]
    cases hout : p.out with
    | true =>
      have hfil : (l ++ [p]).filter (fun q => !q.out) = l.filter (fun q => !q.out) := by
        rw [List.filter_append]; simp [hout]
      simp only [hfil, tmStep, hout]
      simp
    | false =>
      have hfil : (l ++ [p]).filter (fun q => !q.out) = l.filter (fun q => !q.out) ++ [p] := by
        rw [List.filter_append]; simp [hout]
      have hM : ((l.filter (fun q => !q.out) ++ [p]).map Player.score).foldr max 0
          = max p.score (((l.filter (fun q => !q.out)).map Player.score).foldr max 0) := by
        rw [List.map_append, List.foldr_append]
        simp only [List.map_cons, List.map_nil, List.foldr_cons, List.foldr_nil]
        rw [foldr_max_shift]
        omega
      simp only [hfil, hM]
      rcases Nat.lt_trichotomy p.score
          (((l.filter (fun q => !q.out)).map Player.score).foldr max 0) with h | h | h
      · have hmax : max p.score (((l.filter (fun q => !q.out)).map Player.score).foldr max 0)
            = (((l.filter (fun q => !q.out)).map Player.score).foldr max 0) := by omega
        have hne : ¬ (p.score = (((l.filter (fun q => !q.out)).map Player.score).foldr max 0)) := by
          omega
        have hnlt : ¬ ((((l.filter (fun q => !q.out)).map Player.score).foldr max 0) < p.score) := by
          omega
        simp only [hmax, tmStep, hout, Bool.false_eq_true, if_false, hne, hnlt, if_neg]
        have hsing : List.filter
            (fun q => q.score == (((l.filter (fun q => !q.out)).map Player.score).foldr max 0)) [p]
              = [] := by
          simp [hne]
        rw [List.filter_append, hsing, List.length_append]
        simp only [List.length_nil, Nat.add_zero]
      · have hmax : max p.score (((l.filter (fun q => !q.out)).map Player.score).foldr max 0)
            = (((l.filter (fun q => !q.out)).map Player.score).foldr max 0) := by omega
        simp only [hmax]
        have hsing : List.filter
            (fun q => q.score == (((l.filter (fun q => !q.out)).map Player.score).foldr max 0)) [p]
              = [p] := by
          simp [h]
        have hstep : tmStep ((((l.filter (fun q => !q.out)).map Player.score).foldr max 0),
            (List.filter
              (fun q => q.score == ((l.filter (fun q => !q.out)).map Player.score).foldr max 0)
              (l.filter (fun q => !q.out))).length) p
            = ((((l.filter (fun q => !q.out)).map Player.score).foldr max 0),
               (List.filter
                 (fun q => q.score == ((l.filter (fun q => !q.out)).map Player.score).foldr max 0)
                 (l.filter (fun q => !q.out))).length + 1) := by
          simp [tmStep, hout, h]
        rw [hstep, List.filter_append, hsing, List.length_append, List.length_singleton]
      · have hmax : max p.score (((l.filter (fun q => !q.out)).map Player.score).foldr max 0)
            = p.score := by omega
        have hne : ¬ (p.score = (((l.filter (fun q => !q.out)).map Player.score).foldr max 0)) := by
          omega
        have hnil : (l.filter (fun q => !q.out)).filter (fun q => q.score == p.score) = [] := by
          rw [List.filter_eq_nil_iff]
          intro q hq
          have hmem : q.score ∈ (l.filter (fun r => !r.out)).map Player.score :=
            List.mem_map.mpr ⟨q, hq, rfl⟩
          have := le_foldr_max _ _ hmem
          simp
          omega
        simp only [hmax, tmStep, hout, Bool.false_eq_true, if_false, hne, if_neg, h, if_pos]
        have hsing : List.filter (fun q => q.score == p.score) [p] = [p] := by
          simp
        rw [List.filter_append, hnil, hsing]
        simp only [List.nil_append, List.length_singleton]

/-- `termMaxCount` computes `(aliveMax, tiedCount)`. -/
theorem termMaxCount_eq (s : State) : termMaxCount s = (aliveMax s, tiedCount s) := by
  unfold termMaxCount aliveMax aliveScores tiedCount
  exact tm_foldl_eq (playersList s)

/-- `tiedCount` as an explicit per-player indicator sum. -/
theorem tiedCount_eq_ifsum (s : State) : tiedCount s =
    (if (s.players 0).score = aliveMax s ∧ (s.players 0).out = false then 1 else 0) +
    (if (s.players 1).score = aliveMax s ∧ (s.players 1).out = false then 1 else 0) +
    (if (s.players 2).score = aliveMax s ∧ (s.players 2).out = false then 1 else 0) := by
  unfold tiedCount playersList
  rw [List.filter_filter]
  by_cases o0 : (s.players 0).out <;> by_cases e0 : (s.players 0).score = aliveMax s <;>
    by_cases o1 : (s.players 1).out <;> by_cases e1 : (s.players 1).score = aliveMax s <;>
    by_cases o2 : (s.players 2).out <;> by_cases e2 : (s.players 2).score = aliveMax s <;>
    simp [o0, e0, o1, e1, o2, e2]

/-- When some player is non-eliminated, some non-eliminated player attains
the alive maximum. -/
theorem exists_alive_max (s : State) (h : ∃ i : Fin 3, (s.players i).out = false) :
    ∃ j : Fin 3, (s.players j).out = false ∧ (s.players j).score = aliveMax s := by
  obtain ⟨i, hi⟩ := h
  have hmem : s.players i ∈ (playersList s).filter (fun p => !p.out) := by
    rw [List.mem_filter]
    refine ⟨?_, by simp [hi]⟩
    fin_cases i <;> simp [playersList]
  have hne : aliveScores s ≠ [] := by
    unfold aliveScores
    intro hnil
    rw [List.map_eq_nil_iff] at hnil
    rw [hnil] at hmem
    simp at hmem
  have hmax_mem : aliveMax s ∈ aliveScores s := foldr_max_mem _ hne
  unfold aliveScores at hmax_mem
  obtain ⟨p, hp, hps⟩ := List.mem_map.mp hmax_mem
  have hp2 := List.mem_filter.mp hp
  have hcases : p = s.players 0 ∨ p = s.players 1 ∨ p = s.players 2 := by
    simpa [playersList] using hp2.1
  have hpout : p.out = false := by
    have := hp2.2
    simpa using this
  rcases hcases with hc | hc | hc
  · exact ⟨0, by rw [← hc]; exact hpout, by rw [← hc]; exact hps⟩
  · exact ⟨1, by rw [← hc]; exact hpout, by rw [← hc]; exact hps⟩
  · exact ⟨2, by rw [← hc]; exact hpout, by rw [← hc]; exact hps⟩

/-- C3: for every terminal state with at least one non-eliminated player,
`TerminalNode::calc_payoff` gives every non-eliminated player tied at the
maximum alive score probability `1/count`, every other player `0`; the
probabilities sum to exactly 1 and the payoff's `uncertainty()` is 0. -/
theorem terminal_payoff_spec (s : State) (_hterm : s.terminal)
    (halive : ∃ i : Fin 3, (s.players i).out = false) :
    (∀ i : Fin 3, (s.players i).out = false → (s.players i).score = aliveMax s →
      terminalPayoff s i = 1 / (tiedCount s : Prob)) ∧
    (∀ i : Fin 3, (s.players i).out = true ∨ (s.players i).score ≠ aliveMax s →
      terminalPayoff s i = 0) ∧
    (∑ i, terminalPayoff s i) = 1 ∧
    payUncertainty (terminalPayoff s) = 0 := by
  have hpay : ∀ i, terminalPayoff s i =
      if (s.players i).score = aliveMax s ∧ (s.players i).out = false then
        1 / (tiedCount s : Prob) else 0 := by
    intro i
    unfold terminalPayoff
    rw [termMaxCount_eq]
  have hsum : (∑ i, terminalPayoff s i) = 1 := by
    obtain ⟨j, hj, hjs⟩ := exists_alive_max s halive
    have htc := tiedCount_eq_ifsum s
    rw [Fin.sum_univ_three, hpay 0, hpay 1, hpay 2]
    by_cases c0 : (s.players 0).score = aliveMax s ∧ (s.players 0).out = false <;>
      by_cases c1 : (s.players 1).score = aliveMax s ∧ (s.players 1).out = false <;>
      by_cases c2 : (s.players 2).score = aliveMax s ∧ (s.players 2).out = false <;>
      first
        | (rw [htc]
           simp [c0, c1, c2]
           done)
        | (rw [htc]
           simp [c0, c1, c2]
           norm_num
           done)
        | (exfalso
           fin_cases j <;> simp_all)
  refine ⟨?_, ?_, hsum, ?_⟩
  · intro i h1 h2
    rw [hpay i, if_pos ⟨h2, h1⟩]
  · intro i h
    rw [hpay i, if_neg]
    rintro ⟨hs, ho⟩
    rcases h with h | h
    · simp [h] at ho
    · exact h hs
  · unfold payUncertainty
    rw [hsum]
    norm_num

/-- Witness for the C3 theorem: a terminal state (nobody has spins left) with
players 0 and 1 tied at 2000 and player 2 eliminated; each tied player gets
probability 1/2 and the payoff sums to 1. -/
theorem terminal_payoff_spec_witness :
    (∑ i, terminalPayoff (State.mk ![Player.mk 2000 0 0 0 0 0, Player.mk 2000 0 0 0 0 0,
      Player.mk 500 0 0 4 0 0]) i) = 1 :=
  (terminal_payoff_spec
    (State.mk ![Player.mk 2000 0 0 0 0 0, Player.mk 2000 0 0 0 0 0, Player.mk 500 0 0 4 0 0])
    (Or.inl rfl) ⟨0, rfl⟩).2.2.1

/-- Witness for the C8 theorem: with the default options (`max_lead = 15000`,
always-spin-in-third-place on) and a leader by 1000 who is not in third place,
both branches are created. -/
theorem scan_branches_spec_witness :
    (scanBranchesInit (SearchOptions.mk (3/100) 15000 50 7 false true true false)
      (State.mk ![Player.mk 5000 2 0 0 0 0, Player.mk 3000 0 1 0 0 0,
        Player.mk 4000 0 0 1 0 0])).1 =
      some (State.mk ![Player.mk 5000 2 0 0 0 0, Player.mk 3000 0 1 0 0 0,
        Player.mk 4000 0 0 1 0 0]) ∧
    (scanBranchesInit (SearchOptions.mk (3/100) 15000 50 7 false true true false)
      (State.mk ![Player.mk 5000 2 0 0 0 0, Player.mk 3000 0 1 0 0 0,
        Player.mk 4000 0 0 1 0 0])).2 =
      some (passApply (State.mk ![Player.mk 5000 2 0 0 0 0, Player.mk 3000 0 1 0 0 0,
        Player.mk 4000 0 0 1 0 0])) :=
  ⟨(scan_branches_spec _ _).2.2.1 (by decide), (scan_branches_spec _ _).2.2.2 (by decide)⟩

end Pyl
